import Mathlib

/-
  Verification of the yaca key-material / digest / seal-open subsystem.

  Shallow embedding of the C sources in src/ (key.c, crypto.c, digest.c,
  seal.c).  The OpenSSL backend is opaque to the library, so each backend
  call site is modelled by an explicit parameter carrying that call's
  outcome; heap allocations (yaca_zalloc / BIO_new) are modelled as
  succeeding, since every claim under study concerns the library's own
  validation and control flow, not out-of-memory propagation.

  Machine model: LP64 (int = 32 bit, size_t = 64 bit).
-/

namespace Yaca

/-- INT_MAX on the modelled platform (32-bit int). -/
def INT_MAX : Nat := 2147483647

/-- UINT_MAX on the modelled platform (32-bit unsigned). -/
def UINT_MAX : Nat := 4294967295

/-- SIZE_MAX on the modelled platform (64-bit size_t). -/
def SIZE_MAX : Nat := 18446744073709551615

/-- The yaca error taxonomy.  `errNone` is YACA_ERROR_NONE (success).
`invalidArgument` stands for YACA_ERROR_INVALID_ARGUMENT, spelled
YACA_ERROR_INVALID_PARAMETER in the snapshot's crypto.c/digest.c — one
taxonomy member, two spellings across files.  `passwordInvalid` is
YACA_ERROR_PASSWORD_INVALID (the wrong-password code). -/
inductive Ret where
  | errNone
  | invalidArgument
  | outOfMemory
  | internalError
  | passwordInvalid
  | dataMismatch
deriving DecidableEq, Repr

/-- yaca_key_type_e (types.h). -/
inductive KeyType where
  | symmetric
  | des
  | iv
  | rsaPub
  | rsaPriv
  | dsaPub
  | dsaPriv
  | dhPub
  | dhPriv
  | ecPub
  | ecPriv
deriving DecidableEq, Repr

/-- A C byte buffer: a length and the byte at each offset (reads past
`len` never occur on the paths modelled).  Matches the (data, data_len)
pointer-plus-length calling convention of the source. -/
structure CBuf where
  len : Nat
  byte : Nat → Char

/-- Build a buffer from an explicit character list. -/
def CBuf.ofList (l : List Char) : CBuf :=
  ⟨l.length, fun i => l.getD i ' '⟩

/-- struct yaca_key_simple_s: tag, bit count, and the trailing byte
buffer `d`. -/
structure SimpleKey where
  keyType : KeyType
  bits : Nat
  d : CBuf

/-- struct yaca_key_evp_s: tag plus the backend EVP_PKEY handle, of which
only the bit size (EVP_PKEY_bits, 0 encodes a failing query) is relevant
to the claims. -/
structure EvpKey where
  keyType : KeyType
  pkeyBits : Nat
deriving DecidableEq, Repr

/-- yaca_key_h: a key handle is one of the two concrete shapes; the C
`type` field is the `keyType` of the variant. -/
inductive Key where
  | simple (k : SimpleKey)
  | evp (k : EvpKey)

/-- The `type` tag stored at the head of every key struct. -/
def Key.keyType : Key → KeyType
  | .simple k => k.keyType
  | .evp k => k.keyType

/-- key_get_simple (key.c): NULL or a non-simple type tag gives NULL. -/
def key_get_simple : Option Key → Option SimpleKey
  | some (.simple k) =>
    match k.keyType with
    | .symmetric => some k
    | .des => some k
    | .iv => some k
    | _ => none
  | _ => none

/-- key_get_evp (key.c): NULL or a non-EVP type tag gives NULL. -/
def key_get_evp : Option Key → Option EvpKey
  | some (.evp k) =>
    match k.keyType with
    | .rsaPub => some k
    | .rsaPriv => some k
    | .dsaPub => some k
    | .dsaPriv => some k
    | _ => none
  | _ => none

/-- yaca_key_get_bits (key.c).  The out-pointer is assumed non-NULL (all
modelled call sites pass a stack variable).  For an EVP key,
EVP_PKEY_bits returning ≤ 0 (modelled as `pkeyBits = 0`) is Internal. -/
def yaca_key_get_bits (key : Option Key) : Except Ret Nat :=
  match key_get_simple key with
  | some sk => .ok sk.bits
  | none =>
    match key_get_evp key with
    | some ek => if ek.pkeyBits = 0 then .error .internalError else .ok ek.pkeyBits
    | none => .error .invalidArgument

/-- Number of trailing characters equal to the padding sign — specification
helper used to state the padding rule.  `trailingEqCountAux d k` counts
the maximal run of trailing padding characters of the prefix of length
`k`. -/
def trailingEqCountAux (d : CBuf) : Nat → Nat
  | 0 => 0
  | k + 1 => if d.byte k = '=' then trailingEqCountAux d k + 1 else 0

/-- Number of trailing padding characters of the whole buffer. -/
def trailingEqCount (d : CBuf) : Nat :=
  trailingEqCountAux d d.len

/-- The `padded` computation of base64_decode_length (key.c): 1 if the
last character is the padding character, 2 if the last two are. -/
def b64pad (data : CBuf) : Nat :=
  if data.byte (data.len - 1) = '=' then
    (if data.byte (data.len - 2) = '=' then 2 else 1)
  else 0

instance {ε α : Type} [DecidableEq ε] [DecidableEq α] : DecidableEq (Except ε α) :=
  fun x y =>
    match x, y with
    | .ok a, .ok b =>
      if h : a = b then .isTrue (by rw [h])
      else .isFalse (fun hc => h (Except.ok.inj hc))
    | .error a, .error b =>
      if h : a = b then .isTrue (by rw [h])
      else .isFalse (fun hc => h (Except.error.inj hc))
    | .ok _, .error _ => .isFalse (fun hc => Except.noConfusion hc)
    | .error _, .ok _ => .isFalse (fun hc => Except.noConfusion hc)

/-- base64_decode_length (key.c): a length that is not a multiple of 4
is InvalidArgument; otherwise the expected decoded length is
len / 4 * 3 − padded.  (The function asserts data_len ≠ 0; its only
caller guarantees it.) -/
def base64_decode_length (data : CBuf) : Except Ret Nat :=
  if data.len % 4 ≠ 0 then .error .invalidArgument
  else .ok (data.len / 4 * 3 - b64pad data)

/-- Outcome of the backend base64 BIO decode loop in base64_decode:
either some BIO_read failed (`fail`, mapped to Internal), or the loop
drained successfully producing the decoded bytes. -/
inductive BioDecodeResult where
  | fail
  | done (out : CBuf)

/-- base64_decode (key.c): reject data longer than INT_MAX (BIO length
param is int), compute the expected decoded length, run the backend
decode, and reject a decode whose output length is not exactly the
expected one.  BIO allocation failures are elided (modelled as
succeeding). -/
def base64_decode (data : CBuf) (bio : BioDecodeResult) : Except Ret CBuf :=
  if INT_MAX < data.len then .error .invalidArgument
  else
    match base64_decode_length data with
    | .error e => .error e
    | .ok b64_len =>
      match bio with
      | .fail => .error .internalError
      | .done out =>
        if out.len ≠ b64_len then .error .invalidArgument
        else .ok out

/-- The shared tail of import_simple (key.c) applied to whichever buffer
(decoded or raw) was selected: the key_bits-fits-in-size_t check, the
DES bit-length check, and the construction of the simple key
(memcpy of the buffer, bits = byte length · 8). -/
def mk_simple (key_type : KeyType) (buf : CBuf) : Except Ret SimpleKey :=
  if SIZE_MAX / 8 < buf.len then .error .invalidArgument
  else if key_type = .des ∧
      ¬(buf.len * 8 = 64 ∨ buf.len * 8 = 128 ∨ buf.len * 8 = 192) then
    .error .invalidArgument
  else .ok ⟨key_type, buf.len * 8, buf⟩

/-- import_simple (key.c): try base64; on success use the decoded bytes
(an empty decode is Internal, from BIO_get_mem_data ≤ 0); on
InvalidArgument fall back to the raw input bytes; propagate any other
error. -/
def import_simple (key_type : KeyType) (data : CBuf) (bio : BioDecodeResult) :
    Except Ret SimpleKey :=
  match base64_decode data bio with
  | .ok decoded =>
    if decoded.len = 0 then .error .internalError
    else mk_simple key_type decoded
  | .error e =>
    if e = .invalidArgument then mk_simple key_type data
    else .error e

/-- Algorithm of a parsed backend key (EVP_PKEY_type): RSA, DSA, or
anything else (the commented-out EC case falls into `other`). -/
inductive PAlg where
  | rsa
  | dsa
  | other
deriving DecidableEq, Repr

/-- A key parsed by one backend decode attempt: its algorithm and its
EVP_PKEY_bits value. -/
structure ParsedPKey where
  alg : PAlg
  bits : Nat
deriving DecidableEq, Repr

/-- One decode attempt of import_evp: the parsed key (none = the parse
failed), whether check_import_wrong_pass() reports the bad-decrypt
signal right after the attempt, and the value the attempt block assigns
to the local `private` flag. -/
structure Attempt where
  parsed : Option ParsedPKey
  wrongPass : Bool
  isPriv : Bool
deriving DecidableEq, Repr

/-- The backend's responses to the six possible decode attempts of
import_evp for one (data, password) pair.  The two non-PKCS8 DER
attempts take no password and are not followed by
check_import_wrong_pass(), so they carry no wrong-password signal. -/
structure EvpBackend where
  pemPrivKey : Option ParsedPKey
  pemPrivWrong : Bool
  pemPubKey : Option ParsedPKey
  pemPubWrong : Bool
  pemCertKey : Option ParsedPKey
  pemCertWrong : Bool
  pkcs8Key : Option ParsedPKey
  pkcs8Wrong : Bool
  derPrivKey : Option ParsedPKey
  derPubKey : Option ParsedPKey

/-- strncmp("----", data, 4) == 0: the PEM-armor sniff of import_evp. -/
def startsDashes (d : CBuf) : Bool :=
  d.byte 0 = '-' && d.byte 1 = '-' && d.byte 2 = '-' && d.byte 3 = '-'

/-- The attempt sequence import_evp runs: the PEM branch tries
encrypted/plain private key, public key, then certificate-embedded
public key; the DER branch tries PKCS8 private key (password-aware),
plain private key, then public key. -/
def import_attempts (data : CBuf) (B : EvpBackend) : List Attempt :=
  if startsDashes data then
    [⟨B.pemPrivKey, B.pemPrivWrong, true⟩,
     ⟨B.pemPubKey, B.pemPubWrong, false⟩,
     ⟨B.pemCertKey, B.pemCertWrong, false⟩]
  else
    [⟨B.pkcs8Key, B.pkcs8Wrong, true⟩,
     ⟨B.derPrivKey, false, true⟩,
     ⟨B.derPubKey, false, false⟩]

/-- The loop state of import_evp: the parsed key together with the
`private` flag, and the latched wrong-password signal. -/
def AttemptState : Type := Option (ParsedPKey × Bool) × Bool

instance : DecidableEq AttemptState := by
  unfold AttemptState
  infer_instance

/-- Run the attempt sequence with the guard of import_evp: an attempt
executes only while no key has been parsed and the wrong-password signal
has not been latched.  Also returns how many attempts actually
executed. -/
def run_attempts_go : AttemptState → List Attempt → AttemptState × Nat
  | s, [] => (s, 0)
  | s, a :: rest =>
    if s.1 = none ∧ s.2 = false then
      let r := run_attempts_go (a.parsed.map (fun p => (p, a.isPriv)), a.wrongPass) rest
      (r.1, r.2 + 1)
    else (s, 0)

/-- The key-type tag derived from the parsed key's algorithm and the
`private` flag (the switch on EVP_PKEY_type in import_evp); `none` is
the default branch (unsupported algorithm). -/
def keyTypeFromParsed (alg : PAlg) (isPriv : Bool) : Option KeyType :=
  match alg with
  | .rsa => some (if isPriv then .rsaPriv else .rsaPub)
  | .dsa => some (if isPriv then .dsaPriv else .dsaPub)
  | .other => none

/-- import_evp (key.c): length sniff guard (≥ 4 bytes), INT_MAX guard,
the guarded attempt loop, the wrong-password latch check, then the
parsed-type-versus-requested-type check. -/
def import_evp (key_type : KeyType) (data : CBuf) (B : EvpBackend) :
    Except Ret EvpKey :=
  if data.len < 4 then .error .invalidArgument
  else if INT_MAX < data.len then .error .invalidArgument
  else
    let r := run_attempts_go (none, false) (import_attempts data B)
    if r.1.2 = true then .error .passwordInvalid
    else
      match r.1.1 with
      | none => .error .invalidArgument
      | some (p, isPriv) =>
        match keyTypeFromParsed p.alg isPriv with
        | none => .error .invalidArgument
        | some t =>
          if t ≠ key_type then .error .invalidArgument
          else .ok ⟨t, p.bits⟩

/-- yaca_key_import (key.c): NULL/empty-data guard, empty-password
normalization to NULL, and dispatch — simple types reject a password and
go through import_simple, EVP types go through import_evp, the
unimplemented DH/EC types are InvalidArgument. -/
def yaca_key_import (key_type : KeyType) (password : Option (List Char))
    (data : Option CBuf) (bio : BioDecodeResult) (B : EvpBackend) :
    Except Ret Key :=
  match data with
  | none => .error .invalidArgument
  | some d =>
    if d.len = 0 then .error .invalidArgument
    else
      let pw : Option (List Char) :=
        match password with
        | some [] => none
        | p => p
      match key_type with
      | .symmetric | .des | .iv =>
        if pw ≠ none then .error .invalidArgument
        else (import_simple key_type d bio).map Key.simple
      | .rsaPub | .rsaPriv | .dsaPub | .dsaPriv =>
        (import_evp key_type d B).map Key.evp
      | _ => .error .invalidArgument

/-- yaca_key_fmt_e. -/
inductive KeyFmt where
  | fmtDefault
  | fmtPkcs8
deriving DecidableEq, Repr

/-- yaca_key_file_fmt_e. -/
inductive KeyFileFmt where
  | raw
  | base64
  | pem
  | der
deriving DecidableEq, Repr

/-- The encryption selected by export_evp_default_bio when a password is
present: EVP_aes_256_cbc. -/
inductive DefaultEnc where
  | aes256cbc
deriving DecidableEq, Repr

/-- The password-based encryption NID selected by export_evp_pkcs8_bio
when a password is present: NID_pbeWithMD5AndDES_CBC (the legacy weak
cipher); `none` models nid = -1 (no encryption selected). -/
inductive PbeAlg where
  | pbeWithMD5AndDES_CBC
deriving DecidableEq, Repr

/-- export_evp_default_bio (key.c).  The result records the encryption
actually handed to the backend write: the PEM private-key writers take
`enc`, PEM_write_bio_PUBKEY and the DER i2d writers take no encryption
argument at all.  `writeOk` is the backend write outcome (ret ≤ 0 is
Internal). -/
def export_evp_default_bio (k : EvpKey) (fmt : KeyFileFmt)
    (password : Option (List Char)) (writeOk : Bool) :
    Except Ret (Option DefaultEnc) :=
  let enc : Option DefaultEnc :=
    match password with
    | some _ => some .aes256cbc
    | none => none
  match fmt with
  | .pem =>
    match k.keyType with
    | .rsaPriv | .dsaPriv =>
      if writeOk then .ok enc else .error .internalError
    | .rsaPub | .dsaPub =>
      if writeOk then .ok none else .error .internalError
    | _ => .error .invalidArgument
  | .der =>
    match k.keyType with
    | .rsaPriv | .dsaPriv =>
      if writeOk then .ok none else .error .internalError
    | .rsaPub | .dsaPub =>
      if writeOk then .ok none else .error .internalError
    | _ => .error .invalidArgument
  | _ => .error .invalidArgument

/-- export_evp_pkcs8_bio (key.c).  nid is NID_pbeWithMD5AndDES_CBC when
a password was supplied and stays -1 (`none`) otherwise; there is no
check that a password is present.  The result records the nid handed to
the backend PKCS8 writer.  Public keys and raw/base64 file formats are
InvalidArgument. -/
def export_evp_pkcs8_bio (k : EvpKey) (fmt : KeyFileFmt)
    (password : Option (List Char)) (writeOk : Bool) :
    Except Ret (Option PbeAlg) :=
  let nid : Option PbeAlg :=
    match password with
    | some _ => some .pbeWithMD5AndDES_CBC
    | none => none
  match fmt with
  | .pem =>
    match k.keyType with
    | .rsaPriv | .dsaPriv =>
      if writeOk then .ok nid else .error .internalError
    | _ => .error .invalidArgument
  | .der =>
    match k.keyType with
    | .rsaPriv | .dsaPriv =>
      if writeOk then .ok nid else .error .internalError
    | _ => .error .invalidArgument
  | _ => .error .invalidArgument

/-- What an EVP export produced: which format branch ran and which
encryption it handed to the backend. -/
inductive ExportTrace where
  | defaultFmt (enc : Option DefaultEnc)
  | pkcs8Fmt (enc : Option PbeAlg)
deriving DecidableEq, Repr

/-- export_evp (key.c): dispatch on the key format, then BIO_flush
(`flushOk`) and BIO_get_mem_data (`bioLen`, ≤ 0 is Internal) before
copying the bytes out. -/
def export_evp (k : EvpKey) (kfmt : KeyFmt) (ffmt : KeyFileFmt)
    (password : Option (List Char)) (writeOk flushOk : Bool) (bioLen : Nat) :
    Except Ret ExportTrace :=
  let res : Except Ret ExportTrace :=
    match kfmt with
    | .fmtDefault => (export_evp_default_bio k ffmt password writeOk).map .defaultFmt
    | .fmtPkcs8 => (export_evp_pkcs8_bio k ffmt password writeOk).map .pkcs8Fmt
  match res with
  | .error e => .error e
  | .ok t =>
    if flushOk = false then .error .internalError
    else if bioLen = 0 then .error .internalError
    else .ok t

/-- Backend outcomes consumed by the key-generation paths: `rnd` gives
the bytes produced by the randomness source (yaca_rand_bytes or the
DES_random_key blocks), the flags give the success of the corresponding
backend calls. -/
structure GenBackend where
  rnd : Nat → Char
  rndOk : Bool
  desOk : Bool
  rsaOk : Bool
  dsaOk : Bool

/-- gen_simple (key.c): allocate bits/8 bytes, fill from the random
source (`rndOk` false propagates the failure), record the bit count. -/
def gen_simple (key_bits : Nat) (B : GenBackend) : Except Ret SimpleKey :=
  if B.rndOk then .ok ⟨.symmetric, key_bits, ⟨key_bits / 8, B.rnd⟩⟩
  else .error .internalError

/-- gen_simple_des (key.c): only 64/128/192 bits are accepted; then 1 to
3 DES_cblock blocks are generated by DES_random_key (`desOk` is the
collective success of those calls; a failure is Internal), and the bit
count is recorded.  The type tag is left zeroed (= symmetric); the
caller yaca_key_gen stamps the real type. -/
def gen_simple_des (key_bits : Nat) (B : GenBackend) : Except Ret SimpleKey :=
  if ¬(key_bits = 64 ∨ key_bits = 128 ∨ key_bits = 192) then
    .error .invalidArgument
  else if B.desOk then .ok ⟨.symmetric, key_bits, ⟨key_bits / 8, B.rnd⟩⟩
  else .error .internalError

/-- gen_evp_rsa (key.c): single-phase RSA keygen; all failures of the
backend context setup and keygen collapse into `rsaOk` (the bits-setting
call can also surface a mapped error, elided here as a failure). -/
def gen_evp_rsa (key_bits : Nat) (B : GenBackend) : Except Ret EvpKey :=
  if B.rsaOk then .ok ⟨.symmetric, key_bits⟩ else .error .internalError

/-- gen_evp_dsa (key.c): bits < 512 or not a multiple of 64 are
pre-rejected (the backend would silently round), then two-phase
paramgen + keygen collapse into `dsaOk`. -/
def gen_evp_dsa (key_bits : Nat) (B : GenBackend) : Except Ret EvpKey :=
  if key_bits < 512 ∨ key_bits % 64 ≠ 0 then .error .invalidArgument
  else if B.dsaOk then .ok ⟨.symmetric, key_bits⟩ else .error .internalError

/-- yaca_key_gen (key.c): NULL out-pointer elided; zero or non-multiple-
of-8 bit counts are InvalidArgument; dispatch on the key type (the
unimplemented DH/EC types are InvalidArgument); on success the requested
type is stamped onto the fresh key. -/
def yaca_key_gen (key_type : KeyType) (key_bits : Nat) (B : GenBackend) :
    Except Ret Key :=
  if key_bits = 0 ∨ key_bits % 8 ≠ 0 then .error .invalidArgument
  else
    match key_type with
    | .symmetric | .iv =>
      (gen_simple key_bits B).map (fun k => .simple { k with keyType := key_type })
    | .des =>
      (gen_simple_des key_bits B).map (fun k => .simple { k with keyType := key_type })
    | .rsaPriv =>
      (gen_evp_rsa key_bits B).map (fun k => .evp { k with keyType := key_type })
    | .dsaPriv =>
      (gen_evp_dsa key_bits B).map (fun k => .evp { k with keyType := key_type })
    | _ => .error .invalidArgument

/-- enum seal_op_type (seal.c). -/
inductive OpType where
  | opSeal
  | opOpen
deriving DecidableEq, Repr

/-- struct yaca_seal_ctx_s: the operation the context was created for
(the backend cipher state is opaque and carried by the per-call
outcome parameters). -/
structure SealCtxS where
  opType : OpType
deriving DecidableEq, Repr

/-- struct yaca_digest_ctx_s: the backend digest state, of which only
EVP_MD_CTX_size is relevant (0 models a failing size query). -/
structure DigestCtxS where
  mdSize : Nat
deriving DecidableEq, Repr

/-- yaca_ctx_h: the polymorphic context, tagged by kind. -/
inductive Ctx where
  | digest (c : DigestCtxS)
  | seal (c : SealCtxS)
deriving DecidableEq, Repr

/-- get_seal_ctx (seal.c): NULL or a non-SEAL tag gives NULL. -/
def get_seal_ctx : Option Ctx → Option SealCtxS
  | some (.seal c) => some c
  | _ => none

/-- get_digest_ctx (digest.c): NULL or a non-DIGEST tag gives NULL. -/
def get_digest_ctx : Option Ctx → Option DigestCtxS
  | some (.digest c) => some c
  | _ => none

/-- yaca_digest_finalize (digest.c): NULL context/buffer/length-pointer
are InvalidArgument; a declared length of 0 or above UINT_MAX is
InvalidArgument; then EVP_DigestFinal_ex runs (`finalOk`), and on
success the digest length it wrote (the algorithm's digest size) is
stored back through the length pointer — the returned Nat. -/
def yaca_digest_finalize (ctx : Option Ctx) (digestNull : Bool)
    (digest_len : Option Nat) (finalOk : Bool) : Except Ret Nat :=
  match get_digest_ctx ctx with
  | none => .error .invalidArgument
  | some c =>
    if digestNull then .error .invalidArgument
    else
      match digest_len with
      | none => .error .invalidArgument
      | some dl =>
        if dl = 0 ∨ UINT_MAX < dl then .error .invalidArgument
        else if finalOk then .ok c.mdSize else .error .internalError

/-- The symmetric cipher chosen by encrypt_get_algorithm: only its
EVP_CIPHER_iv_length matters here (0 means the cipher takes no IV, as
for the ECB modes and the mode-less stream ciphers listed in
types.h). -/
structure Cipher where
  ivLen : Nat
deriving DecidableEq, Repr

/-- seal_init (seal.c): reject a NULL or non-RSA-public key; query
EVP_PKEY_size (`psize`, none models ret ≤ 0, an Internal failure); look
up the cipher (`cres`); read its IV length; run EVP_SealInit (`sres` is
none on failure, otherwise the key_data_length it reported); package the
fresh symmetric key (key_data_length · 8 bits) and IV (iv_length · 8
bits), and a context tagged OP_SEAL.  `rk`/`ri` are the bytes the
backend wrote into the wrapped-key and IV buffers. -/
def seal_init (pub_key : Option Key) (cres : Except Ret Cipher)
    (psize : Option Nat) (sres : Option Nat) (rk ri : Nat → Char) :
    Except Ret (SealCtxS × SimpleKey × SimpleKey) :=
  match pub_key with
  | none => .error .invalidArgument
  | some pk =>
    if pk.keyType ≠ .rsaPub then .error .invalidArgument
    else
      match psize with
      | none => .error .internalError
      | some _ =>
        match cres with
        | .error e => .error e
        | .ok cipher =>
          match sres with
          | none => .error .internalError
          | some keyLen =>
            .ok (⟨.opSeal⟩,
                 ⟨.symmetric, keyLen * 8, ⟨keyLen, rk⟩⟩,
                 ⟨.iv, cipher.ivLen * 8, ⟨cipher.ivLen, ri⟩⟩)

/-- open_init (seal.c): reject NULL keys, a non-RSA-private key, or a
wrapped key that is not a simple symmetric key; look up the cipher and
its IV length; reject an IV supplied to a cipher that takes none, and a
missing or non-IV key where one is required; then compare the cipher's
IV bit length with yaca_key_get_bits of the supplied IV — note this
query runs unconditionally, even when the cipher takes no IV and `iv` is
NULL; finally EVP_OpenInit (`openOk`) yields a context tagged
OP_OPEN. -/
def open_init (prv_key sym_key iv : Option Key) (cres : Except Ret Cipher)
    (openOk : Bool) : Except Ret SealCtxS :=
  match prv_key, sym_key with
  | none, _ => .error .invalidArgument
  | _, none => .error .invalidArgument
  | some pk, some sk =>
    if pk.keyType ≠ .rsaPriv then .error .invalidArgument
    else
      match key_get_simple (some sk) with
      | none => .error .invalidArgument
      | some lkey =>
        if lkey.keyType ≠ .symmetric then .error .invalidArgument
        else
          match cres with
          | .error e => .error e
          | .ok cipher =>
            let iv_bits := cipher.ivLen * 8
            if iv_bits = 0 ∧ iv.isSome = true then .error .invalidArgument
            else
              let liv := key_get_simple iv
              if iv_bits ≠ 0 ∧
                  (liv.isNone = true ∨ liv.map SimpleKey.keyType ≠ some .iv) then
                .error .invalidArgument
              else
                match yaca_key_get_bits iv with
                | .error _ => .error .invalidArgument
                | .ok iv_bits_check =>
                  if iv_bits ≠ iv_bits_check then .error .invalidArgument
                  else if openOk then .ok ⟨.opOpen⟩
                  else .error .internalError

/-- seal_update (seal.c): one validation gate — NULL context, NULL/empty
input, NULL output or output length, or an operation tag that does not
match the context — then the EVP_SealUpdate/EVP_OpenUpdate call
(`evpRes`: none is a failure, some n the bytes written).  The Bool of
the result records whether the underlying cipher call was invoked. -/
def seal_update (ctx : Option Ctx) (inputNull : Bool) (input_len : Nat)
    (outputNull output_lenNull : Bool) (evpRes : Option Nat) (op : OpType) :
    Except Ret Nat × Bool :=
  match get_seal_ctx ctx with
  | none => (.error .invalidArgument, false)
  | some c =>
    if inputNull = true ∨ input_len = 0 ∨ outputNull = true ∨
        output_lenNull = true ∨ op ≠ c.opType then
      (.error .invalidArgument, false)
    else
      match evpRes with
      | some n => (.ok n, true)
      | none => (.error .internalError, true)

/-- seal_final (seal.c): same gate without the input checks, then
EVP_SealFinal/EVP_OpenFinal. -/
def seal_final (ctx : Option Ctx) (outputNull output_lenNull : Bool)
    (evpRes : Option Nat) (op : OpType) : Except Ret Nat × Bool :=
  match get_seal_ctx ctx with
  | none => (.error .invalidArgument, false)
  | some c =>
    if outputNull = true ∨ output_lenNull = true ∨ op ≠ c.opType then
      (.error .invalidArgument, false)
    else
      match evpRes with
      | some n => (.ok n, true)
      | none => (.error .internalError, true)

/-- yaca_seal_update (seal.c): seal_update with OP_SEAL. -/
def yaca_seal_update (ctx : Option Ctx) (inputNull : Bool) (input_len : Nat)
    (outputNull output_lenNull : Bool) (evpRes : Option Nat) :
    Except Ret Nat × Bool :=
  seal_update ctx inputNull input_len outputNull output_lenNull evpRes .opSeal

/-- yaca_seal_final (seal.c): seal_final with OP_SEAL. -/
def yaca_seal_final (ctx : Option Ctx) (outputNull output_lenNull : Bool)
    (evpRes : Option Nat) : Except Ret Nat × Bool :=
  seal_final ctx outputNull output_lenNull evpRes .opSeal

/-- yaca_open_update (seal.c): seal_update with OP_OPEN. -/
def yaca_open_update (ctx : Option Ctx) (inputNull : Bool) (input_len : Nat)
    (outputNull output_lenNull : Bool) (evpRes : Option Nat) :
    Except Ret Nat × Bool :=
  seal_update ctx inputNull input_len outputNull output_lenNull evpRes .opOpen

/-- yaca_open_final (seal.c): seal_final with OP_OPEN. -/
def yaca_open_final (ctx : Option Ctx) (outputNull output_lenNull : Bool)
    (evpRes : Option Nat) : Except Ret Nat × Bool :=
  seal_final ctx outputNull output_lenNull evpRes .opOpen

/-- CRYPTO_memcmp: the constant-time comparison — OR together the XOR of
every byte pair over the whole length, no short-circuit; the result is 0
exactly when all compared bytes are equal. -/
def CRYPTO_memcmp (a b : Nat → Nat) (len : Nat) : Nat :=
  (List.range len).foldl (fun acc i => acc ||| (a i ^^^ b i)) 0

/-- yaca_memcmp (crypto.c): a NULL buffer with a nonzero length is
InvalidArgument; otherwise CRYPTO_memcmp decides between success and
DataMismatch.  With len = 0 the comparison touches no memory and returns
0 even for NULL buffers. -/
def yaca_memcmp (first second : Option (Nat → Nat)) (len : Nat) : Ret :=
  if 0 < len ∧ (first.isNone = true ∨ second.isNone = true) then
    .invalidArgument
  else
    match first, second with
    | some a, some b =>
      if CRYPTO_memcmp a b len = 0 then .errNone else .dataMismatch
    | _, _ => .errNone

/-- A sample all-clear generation backend for concrete witnesses. -/
def genB0 : GenBackend :=
  ⟨fun _ => 'A', true, true, true, true⟩

/-- A sample EVP import backend where every attempt fails cleanly. -/
def evpB0 : EvpBackend :=
  ⟨none, false, none, false, none, false, none, false, none, none⟩

/-- A sample EVP import backend for an encrypted PEM private key under a
wrong password: the first PEM attempt fails with the bad-decrypt signal;
the second attempt would succeed, but must be skipped by the latch. -/
def evpB1 : EvpBackend :=
  ⟨none, true, some ⟨.rsa, 2048⟩, false, none, false, none, false, none, none⟩

/-- A 3-byte buffer (not a multiple of 4, so never base64). -/
def buf3 : CBuf := CBuf.ofList ['a', 'b', 'c']

/-- A 4-byte base64-looking buffer without padding. -/
def buf4 : CBuf := CBuf.ofList ['A', 'B', 'C', 'D']

/-- A 3-byte decoded-output buffer. -/
def out3 : CBuf := CBuf.ofList ['x', 'y', 'z']

/-- A PEM-armored 4-byte prefix buffer. -/
def bufDashes : CBuf := CBuf.ofList ['-', '-', '-', '-']

/-- A buffer one byte longer than INT_MAX (2^31 bytes of 'A'). -/
def hugeBuf : CBuf := ⟨2147483648, fun _ => 'A'⟩

/-- A 16-byte buffer for symmetric keys and IVs. -/
def buf16 : CBuf := ⟨16, fun _ => 'K'⟩

/-- A concrete RSA private key handle. -/
def rsaPrivKey : Key := .evp ⟨.rsaPriv, 2048⟩

/-- A concrete symmetric key handle (128 bits). -/
def symKey128 : Key := .simple ⟨.symmetric, 128, buf16⟩

/-- A concrete IV handle (128 bits). -/
def ivKey128 : Key := .simple ⟨.iv, 128, buf16⟩

/-- A concrete IV handle (64 bits). -/
def ivKey64 : Key := .simple ⟨.iv, 64, ⟨8, fun _ => 'V'⟩⟩

/- ------------------------------------------------------------------ -/
/- Theorems.                                                          -/
/- ------------------------------------------------------------------ -/

/-- The code's two-character padding probe equals the number of trailing
padding characters capped at 2. -/
theorem b64pad_eq_min (d : CBuf) (h2 : 2 ≤ d.len) :
    b64pad d = min 2 (trailingEqCount d) := by
  obtain ⟨m, hm⟩ : ∃ m, d.len = m + 2 := ⟨d.len - 2, by omega⟩
  unfold b64pad trailingEqCount
  rw [hm]
  have e1 : m + 2 - 1 = m + 1 := by omega
  have e2 : m + 2 - 2 = m := by omega
  rw [e1, e2]
  by_cases hb1 : d.byte (m + 1) = '=' <;>
    by_cases hb0 : d.byte m = '=' <;>
      simp [trailingEqCountAux, hb1, hb0]

/-- A bitwise OR of naturals is zero exactly when both operands are. -/
theorem nat_or_eq_zero (a b : Nat) : a ||| b = 0 ↔ a = 0 ∧ b = 0 := by
  constructor
  · intro h
    refine ⟨Nat.zero_of_testBit_eq_false fun i => ?_,
            Nat.zero_of_testBit_eq_false fun i => ?_⟩ <;>
    · have hbit := congrArg (fun n => Nat.testBit n i) h
      simp only [Nat.testBit_or, Nat.zero_testBit, Bool.or_eq_false_iff] at hbit
      tauto
  · rintro ⟨rfl, rfl⟩
    rfl

/-- An OR-accumulating fold is zero exactly when the accumulator and
every folded term are zero. -/
theorem foldl_or_eq_zero (g : Nat → Nat) (l : List Nat) (acc : Nat) :
    (l.foldl (fun x i => x ||| g i) acc = 0) ↔ (acc = 0 ∧ ∀ i ∈ l, g i = 0) := by
  induction l generalizing acc with
  | nil => simp
  | cons hd tl ih =>
    simp only [List.foldl_cons, ih, List.mem_cons, nat_or_eq_zero]
    constructor
    · rintro ⟨⟨h1, h2⟩, h3⟩
      exact ⟨h1, fun i hi => hi.elim (fun he => he ▸ h2) (h3 i)⟩
    · rintro ⟨h1, h2⟩
      exact ⟨⟨h1, h2 hd (Or.inl rfl)⟩, fun i hi => h2 i (Or.inr hi)⟩

/-- CRYPTO_memcmp is zero exactly when the two buffers agree on every
compared byte. -/
theorem CRYPTO_memcmp_eq_zero (a b : Nat → Nat) (len : Nat) :
    CRYPTO_memcmp a b len = 0 ↔ ∀ i < len, a i = b i := by
  unfold CRYPTO_memcmp
  rw [foldl_or_eq_zero (fun i => a i ^^^ b i)]
  simp [Nat.xor_eq_zero, List.mem_range]

/-- C5: base64 decoding rejects any input whose length is not a multiple
of 4; for accepted input the expected decoded length is
⌊len/4⌋·3 − padding with padding = min 2 (number of trailing padding
characters), and the decode succeeds exactly when the backend output has
that length — any other output length is rejected as InvalidArgument. -/
theorem base64_decode_length_spec (data out : CBuf)
    (h0 : 0 < data.len) (hmax : data.len ≤ INT_MAX) :
    (data.len % 4 ≠ 0 → base64_decode data (.done out) = .error .invalidArgument)
  ∧ (data.len % 4 = 0 →
      base64_decode_length data =
        .ok (data.len / 4 * 3 - min 2 (trailingEqCount data))
    ∧ (out.len ≠ data.len / 4 * 3 - min 2 (trailingEqCount data) →
        base64_decode data (.done out) = .error .invalidArgument)
    ∧ (out.len = data.len / 4 * 3 - min 2 (trailingEqCount data) →
        base64_decode data (.done out) = .ok out)) := by
  have hnle : ¬ INT_MAX < data.len := by omega
  constructor
  · intro hmod
    unfold base64_decode base64_decode_length
    simp [hnle, hmod]
  · intro hmod
    have h4 : 4 ≤ data.len := Nat.le_of_dvd h0 (Nat.dvd_of_mod_eq_zero hmod)
    have hlen : base64_decode_length data =
        .ok (data.len / 4 * 3 - min 2 (trailingEqCount data)) := by
      unfold base64_decode_length
      rw [b64pad_eq_min data (by omega)]
      simp [hmod]
    refine ⟨hlen, ?_, ?_⟩ <;> intro hout <;>
      · unfold base64_decode
        rw [hlen]
        simp [hnle, hout]

/-- Witness for base64_decode_length_spec at a concrete unpadded
4-character input with a 3-byte backend output. -/
theorem base64_decode_length_spec_witness :
    base64_decode buf4 (.done out3) = .ok out3 :=
  ((base64_decode_length_spec buf4 out3 (by decide) (by decide)).2
    (by decide)).2.2 (by decide)

/-- C6: whenever base64 decoding rejects the input as not-base64 (an
InvalidArgument, the non-hard rejection) and the simple import still
produces a key, that key's buffer is the original input verbatim and its
bit count is the input byte length times 8. -/
theorem import_simple_raw_fallback (kt : KeyType) (data : CBuf)
    (bio : BioDecodeResult) (k : SimpleKey)
    (hrej : base64_decode data bio = .error .invalidArgument)
    (hok : import_simple kt data bio = .ok k) :
    k.d = data ∧ k.bits = data.len * 8 := by
  unfold import_simple at hok
  rw [hrej] at hok
  simp only [reduceIte] at hok
  unfold mk_simple at hok
  split at hok
  · exact absurd hok (by simp)
  · split at hok
    · exact absurd hok (by simp)
    · simp only [Except.ok.injEq] at hok
      rw [← hok]
      exact ⟨rfl, rfl⟩

/-- Witness for import_simple_raw_fallback at a concrete 3-byte raw
input. -/
theorem import_simple_raw_fallback_witness :
    (⟨.symmetric, 24, buf3⟩ : SimpleKey).d = buf3 ∧
    (⟨.symmetric, 24, buf3⟩ : SimpleKey).bits = buf3.len * 8 :=
  import_simple_raw_fallback .symmetric buf3 .fail ⟨.symmetric, 24, buf3⟩ rfl rfl

/-- C9: the constant-time comparison reports success at length zero,
DataMismatch for equal-length non-null buffers differing in some byte,
and InvalidArgument for a null buffer with a nonzero length. -/
theorem yaca_memcmp_spec (first second : Option (Nat → Nat))
    (a b : Nat → Nat) (len : Nat) :
    yaca_memcmp first second 0 = .errNone
  ∧ (0 < len → (∃ i, i < len ∧ a i ≠ b i) →
      yaca_memcmp (some a) (some b) len = .dataMismatch)
  ∧ (0 < len → first.isNone = true ∨ second.isNone = true →
      yaca_memcmp first second len = .invalidArgument) := by
  refine ⟨?_, ?_, ?_⟩
  · unfold yaca_memcmp
    cases first <;> cases second <;> simp [CRYPTO_memcmp]
  · rintro hlen ⟨i, hi, hne⟩
    unfold yaca_memcmp
    have hcm : ¬ CRYPTO_memcmp a b len = 0 := by
      rw [CRYPTO_memcmp_eq_zero]
      intro hall
      exact hne (hall i hi)
    simp [hcm]
  · intro hlen hnull
    unfold yaca_memcmp
    exact if_pos ⟨hlen, hnull⟩

/-- Witness for yaca_memcmp_spec: buffers of length 2 differing at
offset 1 mismatch. -/
theorem yaca_memcmp_spec_witness :
    yaca_memcmp (some fun i => i) (some fun _ => 0) 2 = .dataMismatch :=
  (yaca_memcmp_spec (some fun i => i) (some fun _ => 0)
    (fun i => i) (fun _ => 0) 2).2.1 (by decide) ⟨1, by decide, by decide⟩

/-- Once the loop state is no longer clean (a key was parsed or the
wrong-password signal latched), no further attempt executes. -/
theorem run_go_stuck (s : AttemptState) (l : List Attempt)
    (hs : ¬(s.1 = none ∧ s.2 = false)) :
    run_attempts_go s l = (s, 0) := by
  cases l with
  | nil => rfl
  | cons a rest =>
    unfold run_attempts_go
    exact if_neg hs

/-- One step of the attempt loop. -/
theorem run_go_cons (s : AttemptState) (a : Attempt) (l : List Attempt) :
    run_attempts_go s (a :: l) =
      if s.1 = none ∧ s.2 = false then
        ((run_attempts_go (a.parsed.map (fun p => (p, a.isPriv)), a.wrongPass) l).1,
         (run_attempts_go (a.parsed.map (fun p => (p, a.isPriv)), a.wrongPass) l).2 + 1)
      else (s, 0) := rfl

/-- Attempts that fail without the wrong-password signal leave the state
clean and each count as executed. -/
theorem run_go_skip_clean (pre rest : List Attempt)
    (hpre : ∀ b ∈ pre, b.parsed = none ∧ b.wrongPass = false) :
    run_attempts_go (none, false) (pre ++ rest) =
      ((run_attempts_go (none, false) rest).1,
       pre.length + (run_attempts_go (none, false) rest).2) := by
  induction pre with
  | nil => simp
  | cons b tl ih =>
    have hb := hpre b (List.mem_cons_self b tl)
    have htl : ∀ x ∈ tl, x.parsed = none ∧ x.wrongPass = false :=
      fun x hx => hpre x (List.mem_cons_of_mem b hx)
    rw [List.cons_append, run_go_cons, if_pos ⟨rfl, rfl⟩, hb.1, hb.2]
    simp only [Option.map_none']
    rw [ih htl]
    simp only [List.length_cons]
    exact Prod.ext rfl (by omega)

/-- C1: importing with a password-encrypted asymmetric key and a missing
or wrong password — modelled as: some attempt reports the bad-decrypt
signal and parses nothing, and every earlier attempt failed cleanly —
always yields the wrong-password error (never InvalidArgument, never a
key), and every attempt after the latching one is skipped: exactly the
clean prefix and the latching attempt execute. -/
theorem import_wrong_password_latched (kt : KeyType) (pw : Option (List Char))
    (data : CBuf) (bio : BioDecodeResult) (B : EvpBackend)
    (hkt : kt = .rsaPub ∨ kt = .rsaPriv ∨ kt = .dsaPub ∨ kt = .dsaPriv)
    (h4 : 4 ≤ data.len) (hmax : data.len ≤ INT_MAX)
    (pre post : List Attempt) (a : Attempt)
    (hsplit : import_attempts data B = pre ++ a :: post)
    (hpre : ∀ b ∈ pre, b.parsed = none ∧ b.wrongPass = false)
    (hfail : a.parsed = none) (hwrong : a.wrongPass = true) :
    yaca_key_import kt pw (some data) bio B = .error .passwordInvalid
  ∧ (run_attempts_go (none, false) (import_attempts data B)).2 = pre.length + 1 := by
  have hrun : run_attempts_go (none, false) (import_attempts data B)
      = ((none, true), pre.length + 1) := by
    rw [hsplit, run_go_skip_clean pre (a :: post) hpre, run_go_cons,
      if_pos ⟨rfl, rfl⟩, hfail, hwrong]
    simp only [Option.map_none']
    rw [run_go_stuck (none, true) post (by simp)]
  have himp : import_evp kt data B = .error .passwordInvalid := by
    unfold import_evp
    have hn4 : ¬ data.len < 4 := by omega
    have hni : ¬ INT_MAX < data.len := by omega
    rw [if_neg hn4, if_neg hni, hrun]
    rfl
  have hlen : ¬ data.len = 0 := by omega
  refine ⟨?_, by rw [hrun]⟩
  unfold yaca_key_import
  rcases hkt with rfl | rfl | rfl | rfl <;> simp [hlen, himp, Except.map]

/-- Witness for import_wrong_password_latched: a PEM blob whose
private-key attempt latches the wrong-password signal; the public-key
attempt of evpB1 would succeed but is skipped. -/
theorem import_wrong_password_latched_witness :
    yaca_key_import .rsaPriv none (some bufDashes) .fail evpB1
      = .error .passwordInvalid
  ∧ (run_attempts_go (none, false) (import_attempts bufDashes evpB1)).2 = 1 :=
  import_wrong_password_latched .rsaPriv none bufDashes .fail evpB1
    (Or.inr (Or.inl rfl)) (by decide) (by decide)
    [] [⟨some ⟨.rsa, 2048⟩, false, false⟩, ⟨none, false, false⟩]
    ⟨none, true, true⟩ rfl (by simp) rfl rfl

/-- C3 counterexample: a digest context whose algorithm writes 32 bytes
accepts a declared output length of 16 — the call is not rejected with
InvalidArgument; the backend write proceeds and the actual digest length
is stored. -/
theorem digest_finalize_small_buffer_accepted :
    yaca_digest_finalize (some (.digest ⟨32⟩)) false (some 16) true = .ok 32
  ∧ yaca_digest_finalize (some (.digest ⟨32⟩)) false (some 16) true
      ≠ .error .invalidArgument := by decide

/-- C3 amended: finalize rejects only a declared length of zero or above
UINT_MAX with InvalidArgument — a nonzero declared length smaller than
the digest size is not rejected — and on success the actual digest
length is written through the length parameter. -/
theorem digest_finalize_amended (c : DigestCtxS) (dl : Nat) (finalOk : Bool) :
    ((dl = 0 ∨ UINT_MAX < dl) →
      yaca_digest_finalize (some (.digest c)) false (some dl) finalOk
        = .error .invalidArgument)
  ∧ (¬(dl = 0 ∨ UINT_MAX < dl) → finalOk = true →
      yaca_digest_finalize (some (.digest c)) false (some dl) finalOk
        = .ok c.mdSize) := by
  unfold yaca_digest_finalize get_digest_ctx
  constructor
  · intro h
    simp [h]
  · intro h hf
    simp [h, hf]

/-- Witness for digest_finalize_amended: a full-size declared length
succeeds and reports the digest size. -/
theorem digest_finalize_amended_witness :
    yaca_digest_finalize (some (.digest ⟨32⟩)) false (some 32) true = .ok 32 :=
  (digest_finalize_amended ⟨32⟩ 32 true).2 (by decide) rfl

/-- C4: PKCS8 export of a private key with no password is not rejected —
the code hands nid = -1 (no encryption) to the backend writer, so the
call either succeeds with an unencrypted PKCS8 structure or surfaces the
backend failure as Internal, never InvalidArgument; with a password the
legacy pbeWithMD5AndDES_CBC cipher is selected. -/
theorem export_pkcs8_password_not_validated :
    export_evp ⟨.rsaPriv, 2048⟩ .fmtPkcs8 .pem none true true 100
      = .ok (.pkcs8Fmt none)
  ∧ export_evp ⟨.rsaPriv, 2048⟩ .fmtPkcs8 .der none true true 100
      = .ok (.pkcs8Fmt none)
  ∧ export_evp ⟨.rsaPriv, 2048⟩ .fmtPkcs8 .pem none false true 100
      = .error .internalError
  ∧ export_evp ⟨.rsaPriv, 2048⟩ .fmtPkcs8 .pem (some ['p']) true true 100
      = .ok (.pkcs8Fmt (some .pbeWithMD5AndDES_CBC)) := by decide

/-- C7: generating a DES key with any bit length other than 64, 128 or
192 is InvalidArgument, and each legal length (when the backend DES key
generator succeeds) yields a key whose bit count is exactly the
requested one. -/
theorem yaca_key_gen_des_spec (key_bits : Nat) (B : GenBackend) :
    (¬(key_bits = 64 ∨ key_bits = 128 ∨ key_bits = 192) →
      yaca_key_gen .des key_bits B = .error .invalidArgument)
  ∧ ((key_bits = 64 ∨ key_bits = 128 ∨ key_bits = 192) → B.desOk = true →
      yaca_key_gen .des key_bits B
        = .ok (.simple ⟨.des, key_bits, ⟨key_bits / 8, B.rnd⟩⟩)) := by
  constructor
  · intro h
    unfold yaca_key_gen
    by_cases h0 : key_bits = 0 ∨ key_bits % 8 ≠ 0
    · simp [h0]
    · rw [if_neg h0]
      unfold gen_simple_des
      simp [h, Except.map]
  · rintro (rfl | rfl | rfl) hok <;>
      simp [yaca_key_gen, gen_simple_des, hok, Except.map]

/-- Witness for yaca_key_gen_des_spec at the legal 64-bit length. -/
theorem yaca_key_gen_des_spec_witness :
    yaca_key_gen .des 64 genB0
      = .ok (.simple ⟨.des, 64, ⟨64 / 8, genB0.rnd⟩⟩) :=
  (yaca_key_gen_des_spec 64 genB0).2 (Or.inl rfl) rfl

/-- C2: open_init's IV validation, evaluated at concrete inputs (an RSA
private key, a symmetric wrapped key, a cipher with a 16-byte IV or with
none).  A required IV that is absent or of mismatched bit length is
rejected, an IV supplied to a no-IV cipher is rejected, and a matching
IV is accepted — but the fifth conjunct exhibits the divergence: with a
no-IV cipher and no IV supplied (the configuration the claim says must
pass IV validation) the unconditional yaca_key_get_bits(NULL) query
fails and the call is rejected with InvalidArgument. -/
theorem open_init_iv_validation :
    open_init (some rsaPrivKey) (some symKey128) none (.ok ⟨16⟩) true
      = .error .invalidArgument
  ∧ open_init (some rsaPrivKey) (some symKey128) (some ivKey64) (.ok ⟨16⟩) true
      = .error .invalidArgument
  ∧ open_init (some rsaPrivKey) (some symKey128) (some ivKey128) (.ok ⟨0⟩) true
      = .error .invalidArgument
  ∧ open_init (some rsaPrivKey) (some symKey128) (some ivKey128) (.ok ⟨16⟩) true
      = .ok ⟨.opOpen⟩
  ∧ open_init (some rsaPrivKey) (some symKey128) none (.ok ⟨0⟩) true
      = .error .invalidArgument := by decide

/-- C8: a context records the operation it was created for — seal_init
tags OP_SEAL, open_init tags OP_OPEN — and calling the open streaming
entry points on a seal context (or the seal ones on an open context)
always fails with InvalidArgument with the underlying cipher update or
final call never invoked. -/
theorem seal_open_op_gating
    (c : SealCtxS) (inN outN olN : Bool) (ilen : Nat) (evp : Option Nat)
    (pub prv sym ivk : Option Key) (cres : Except Ret Cipher)
    (psize sres : Option Nat) (rk ri : Nat → Char) (k ivOut : SimpleKey)
    (oOk : Bool) :
    (seal_init pub cres psize sres rk ri = .ok (c, k, ivOut) → c.opType = .opSeal)
  ∧ (open_init prv sym ivk cres oOk = .ok c → c.opType = .opOpen)
  ∧ (c.opType = .opSeal →
      yaca_open_update (some (.seal c)) inN ilen outN olN evp
          = (.error .invalidArgument, false)
      ∧ yaca_open_final (some (.seal c)) outN olN evp
          = (.error .invalidArgument, false))
  ∧ (c.opType = .opOpen →
      yaca_seal_update (some (.seal c)) inN ilen outN olN evp
          = (.error .invalidArgument, false)
      ∧ yaca_seal_final (some (.seal c)) outN olN evp
          = (.error .invalidArgument, false)) := by
  refine ⟨?_, ?_, ?_, ?_⟩
  · intro h
    unfold seal_init at h
    repeat' (first | exact Except.noConfusion h | split at h)
    simp only [Except.ok.injEq, Prod.mk.injEq] at h
    rw [← h.1]
  · intro h
    unfold open_init at h
    repeat' (first | exact Except.noConfusion h | split at h | simp at h)
    all_goals simp [← h]
  · intro hop
    have hne : (OpType.opOpen : OpType) ≠ c.opType := by simp [hop]
    constructor <;>
      simp [yaca_open_update, yaca_open_final, seal_update, seal_final,
        get_seal_ctx, hne]
  · intro hop
    have hne : (OpType.opSeal : OpType) ≠ c.opType := by simp [hop]
    constructor <;>
      simp [yaca_seal_update, yaca_seal_final, seal_update, seal_final,
        get_seal_ctx, hne]

/-- Witness for seal_open_op_gating: the open streaming calls on a
concrete OP_SEAL context are rejected without invoking the cipher. -/
theorem seal_open_op_gating_witness :
    yaca_open_update (some (.seal ⟨.opSeal⟩)) false 1 false false none
        = (.error .invalidArgument, false)
  ∧ yaca_open_final (some (.seal ⟨.opSeal⟩)) false false none
        = (.error .invalidArgument, false) :=
  (seal_open_op_gating ⟨.opSeal⟩ false false false 1 none none none none none
    (.error .invalidArgument) none none (fun _ => 'A') (fun _ => 'A')
    ⟨.symmetric, 0, ⟨0, fun _ => 'A'⟩⟩ ⟨.iv, 0, ⟨0, fun _ => 'A'⟩⟩ true).2.2.1 rfl

/-- C10 counterexample: a symmetric import of 2^31 bytes (one past
INT_MAX would behave identically; 2^31 > INT_MAX) does not fail — base64
decoding rejects the oversized input with InvalidArgument, import_simple
treats that as the raw fallback, and a key is constructed from the
oversized input verbatim. -/
theorem import_oversized_symmetric_succeeds :
    yaca_key_import .symmetric none (some hugeBuf) .fail evpB0
      = .ok (.simple ⟨.symmetric, 17179869184, hugeBuf⟩)
  ∧ yaca_key_import .symmetric none (some hugeBuf) .fail evpB0
      ≠ .error .invalidArgument := by
  have h1 : yaca_key_import .symmetric none (some hugeBuf) .fail evpB0
      = .ok (.simple ⟨.symmetric, 17179869184, hugeBuf⟩) := rfl
  exact ⟨h1, fun h => Except.noConfusion (h1.symm.trans h)⟩

/-- C10 amended: for the four EVP key types an import whose data exceeds
INT_MAX bytes fails with InvalidArgument before any decode attempt runs;
for the simple types base64 decoding is rejected and the bytes fall back
to raw import — a verbatim key is constructed whenever the length fits
in SIZE_MAX/8 (for DES the length can never map to a legal bit count, so
DES fails), and only a length above SIZE_MAX/8 is InvalidArgument. -/
theorem import_oversized_behaviour (kt : KeyType) (data : CBuf)
    (bio : BioDecodeResult) (B : EvpBackend) (hbig : INT_MAX < data.len) :
    ((kt = .rsaPub ∨ kt = .rsaPriv ∨ kt = .dsaPub ∨ kt = .dsaPriv) →
      yaca_key_import kt none (some data) bio B = .error .invalidArgument)
  ∧ ((kt = .symmetric ∨ kt = .iv) → data.len ≤ SIZE_MAX / 8 →
      yaca_key_import kt none (some data) bio B
        = .ok (.simple ⟨kt, data.len * 8, data⟩))
  ∧ ((kt = .symmetric ∨ kt = .iv ∨ kt = .des) → SIZE_MAX / 8 < data.len →
      yaca_key_import kt none (some data) bio B = .error .invalidArgument)
  ∧ (kt = .des → data.len ≤ SIZE_MAX / 8 →
      yaca_key_import kt none (some data) bio B = .error .invalidArgument) := by
  have hIM : INT_MAX = 2147483647 := rfl
  have hlen : ¬ data.len = 0 := by omega
  have hb64 : base64_decode data bio = .error .invalidArgument := by
    unfold base64_decode
    rw [if_pos hbig]
  have hsimple : ∀ kt2, import_simple kt2 data bio = mk_simple kt2 data := by
    intro kt2
    unfold import_simple
    rw [hb64]
    rfl
  have hdes : ¬(data.len * 8 = 64 ∨ data.len * 8 = 128 ∨ data.len * 8 = 192) := by
    omega
  refine ⟨?_, ?_, ?_, ?_⟩
  · rintro (rfl | rfl | rfl | rfl) <;>
    · unfold yaca_key_import import_evp
      have hn4 : ¬ data.len < 4 := by omega
      simp [hlen, hn4, hbig, Except.map]
  · rintro (rfl | rfl) hsz <;>
    · have hsz' : ¬ SIZE_MAX / 8 < data.len := Nat.not_lt.mpr hsz
      unfold yaca_key_import
      simp [hlen, hsimple, mk_simple, hsz', Except.map]
  · rintro (rfl | rfl | rfl) hsz <;>
    · unfold yaca_key_import
      simp [hlen, hsimple, mk_simple, hsz, Except.map]
  · rintro rfl hsz
    have hsz' : ¬ SIZE_MAX / 8 < data.len := Nat.not_lt.mpr hsz
    unfold yaca_key_import
    simp [hlen, hsimple, mk_simple, hsz', hdes, Except.map]

/-- Witness for import_oversized_behaviour: an RSA-private import of the
oversized buffer is rejected before any decoding. -/
theorem import_oversized_behaviour_witness :
    yaca_key_import .rsaPriv none (some hugeBuf) .fail evpB0
      = .error .invalidArgument :=
  (import_oversized_behaviour .rsaPriv hugeBuf .fail evpB0 (by decide)).1
    (Or.inr (Or.inl rfl))

end Yaca
